import Mathlib

/-!
Shallow embedding of the Stock-Management record store and its product
operations (src/stock.py, src/product.py, src/main2.py, src/Main.py,
src/main3.py), followed by theorems settling the specification claims.

Python types are embedded as follows: str is String, int is Int
(Python integers are unbounded), float prices are Rat (the claims never
depend on float rounding), list is List, dict product records and the
Product dataclass both become the structure ProductR.  A store object
(Stock, Product, ProductManager) is a Store: its in-memory list, the
parsed contents of its backing CSV file, and a counter of how many times
the save method (Persist) has been invoked.  save_products writes the
whole in-memory list to the file, so saving is modelled by replacing the
file component and bumping the counter.
-/

namespace StockMgmt

/-- Python str.lower(): lowercase every character. -/
def pyLower (s : String) : String :=
  String.mk (s.data.map Char.toLower)

/-- A product record: dict keys name, price, quantity in product.py and
main2.py, and the dataclass fields of stock.py. -/
structure ProductR where
  name : String
  price : Rat
  quantity : Int
deriving DecidableEq

/-- A store object: in-memory list, parsed backing-file contents, and a
count of how many times the save method has run. -/
structure Store where
  products : List ProductR
  file : List ProductR
  saves : Nat
deriving DecidableEq

/-- Effect of assigning the in-memory list and calling save_products:
the file now holds exactly the in-memory list. -/
def saveStore (s : Store) (ps : List ProductR) : Store :=
  { products := ps, file := ps, saves := s.saves + 1 }

/-- search_product, identical in stock.py, product.py and main2.py:
linear scan, first record whose lowercased name equals the lowercased
query. -/
def search_product (ps : List ProductR) (q : String) : Option ProductR :=
  match ps with
  | [] => none
  | p :: rest =>
    if pyLower p.name = pyLower q then some p else search_product rest q

/-- In-place mutation of the first record matching the query, as done by
receive_stock, record_sale and adjust_stock through the alias returned
by search_product. -/
def updateFirst (ps : List ProductR) (q : String) (f : ProductR → ProductR) :
    List ProductR :=
  match ps with
  | [] => []
  | p :: rest =>
    if pyLower p.name = pyLower q then f p :: rest
    else p :: updateFirst rest q f

namespace StockPy

/-- stock.py Stock.receive_stock: on a match add quantity to the first
matching record and save, returning True; otherwise return False. -/
def receive_stock (s : Store) (q : String) (qty : Int) : Store × Bool :=
  match search_product s.products q with
  | some _ =>
    (saveStore s (updateFirst s.products q
      (fun p => { p with quantity := p.quantity + qty })), true)
  | none => (s, false)

/-- stock.py Stock.record_sale: on a match with enough stock subtract
quantity and save, returning True; otherwise return False. -/
def record_sale (s : Store) (q : String) (qty : Int) : Store × Bool :=
  match search_product s.products q with
  | some p =>
    if qty ≤ p.quantity then
      (saveStore s (updateFirst s.products q
        (fun r => { r with quantity := r.quantity - qty })), true)
    else (s, false)
  | none => (s, false)

/-- stock.py Stock.adjust_stock: on a match set the quantity of the
first matching record and save, returning True; otherwise False. -/
def adjust_stock (s : Store) (q : String) (newQty : Int) : Store × Bool :=
  match search_product s.products q with
  | some _ =>
    (saveStore s (updateFirst s.products q
      (fun p => { p with quantity := newQty })), true)
  | none => (s, false)

end StockPy

namespace ProductPy

/-- product.py Product.add_product: append the record and save, with no
duplicate check of any kind. -/
def add_product (s : Store) (p : ProductR) : Store :=
  saveStore s (s.products ++ [p])

/-- Helper for product.py Product.update_product: replace the first
record matching the query, reporting failure when nothing matches. -/
def replaceFirstMatch (ps : List ProductR) (q : String) (r : ProductR) :
    Option (List ProductR) :=
  match ps with
  | [] => none
  | p :: rest =>
    if pyLower p.name = pyLower q then some (r :: rest)
    else (replaceFirstMatch rest q r).map (p :: ·)

/-- product.py Product.update_product (textually the same in main2.py):
replace the first matching record in place and save, returning True;
return False when nothing matches. -/
def update_product (s : Store) (q : String) (r : ProductR) : Store × Bool :=
  match replaceFirstMatch s.products q r with
  | some ps => (saveStore s ps, true)
  | none => (s, false)

/-- product.py Product.delete_product: filter out every record whose
lowercased name equals the lowercased query, then save unconditionally. -/
def delete_product (s : Store) (q : String) : Store :=
  saveStore s (s.products.filter (fun p => !(pyLower p.name == pyLower q)))

end ProductPy

namespace Main2

/-- main2.py ProductManager.add_product: if search_product finds the
name, print an error and return with no change; otherwise append the
record and save. -/
def pm_add_product (s : Store) (p : ProductR) : Store :=
  match search_product s.products p.name with
  | some _ => s
  | none => saveStore s (s.products ++ [p])

/-- Python list.remove(x): drop the first element equal to x (no-op
modelled only for the call sites where x is known to be present). -/
def pyRemove (ps : List ProductR) (x : ProductR) : List ProductR :=
  match ps with
  | [] => []
  | p :: rest => if p = x then rest else p :: pyRemove rest x

/-- main2.py ProductManager.delete_product: search for the name; when a
record is found remove that one element and save, returning True;
otherwise return False. -/
def pm_delete_product (s : Store) (q : String) : Store × Bool :=
  match search_product s.products q with
  | some p => (saveStore s (pyRemove s.products p), true)
  | none => (s, false)

end Main2

/-- Low-stock query of Main.py purchase_order_system (and the list
comprehension of main2.py line 333): every product with quantity
strictly below the threshold, kept in store order. -/
def low_stock_items (ps : List ProductR) (threshold : Int) : List ProductR :=
  ps.filter (fun p => decide (p.quantity < threshold))

namespace MainPy

/-- Main.py line 14: the accepted username spellings. -/
def admin_username : List String := ["admin", "ADMIN"]

/-- Main.py line 15: the accepted password spellings. -/
def admin_password : List String := ["test", "TEST"]

/-- Main.py lines 20-30: one iteration of the login loop grants entry
when the lowercased username is in admin_username and the lowercased
password is in admin_password.  Note both inputs are lowercased. -/
def login_grant (u pw : String) : Bool :=
  admin_username.contains (pyLower u) && admin_password.contains (pyLower pw)

end MainPy

namespace Main3

/-- main3.py line 10: the single-entry credential dict, as an
association list. -/
def CREDENTIALS : List (String × String) := [("admin", "test")]

/-- main3.py login, lines 48-65: one attempt grants entry when the
lowercased username is a key of CREDENTIALS and the password, compared
exactly as submitted, equals the stored value. -/
def login_grant (u pw : String) : Bool :=
  match CREDENTIALS.find? (fun c => c.1 == pyLower u) with
  | some c => pw == c.2
  | none => false

end Main3

/-- The unique-key invariant of the spec data model: no two records of
one store have names equal under case-insensitive comparison. -/
def noDupNames (ps : List ProductR) : Prop :=
  List.Pairwise (fun a b => pyLower a.name ≠ pyLower b.name) ps

instance (ps : List ProductR) : Decidable (noDupNames ps) := by
  unfold noDupNames; infer_instance

/-- Concrete record used by witnesses. -/
def tea : ProductR := { name := "Tea", price := 3, quantity := 5 }

/-- Concrete record whose name equals tea only case-insensitively. -/
def teaUpper : ProductR := { name := "TEA", price := 3, quantity := 7 }

/-- Concrete record with a lowercase duplicate of the name of tea. -/
def teaDup : ProductR := { name := "tea", price := 2, quantity := 1 }

/-- Concrete replacement record for the rename scenario. -/
def greenTea : ProductR := { name := "Green Tea", price := 3, quantity := 5 }

/-- The rational 5/2, built from numerator and denominator directly so
that kernel reduction can evaluate it. -/
def twoPointFive : Rat := ⟨5, 2, by decide, by decide⟩

/-- The rational 7/2, built from numerator and denominator directly. -/
def threePointFive : Rat := ⟨7, 2, by decide, by decide⟩

/-- Concrete record from the low-stock scenario of the spec. -/
def espresso : ProductR :=
  { name := "Espresso", price := twoPointFive, quantity := 8 }

/-- Concrete record from the case-insensitive search scenario. -/
def latteMix : ProductR :=
  { name := "Latte Mix", price := threePointFive, quantity := 4 }

/-- Concrete single-record store used by witnesses. -/
def demoStore : Store := { products := [tea], file := [tea], saves := 0 }

/-- Concrete store holding two records whose names collide
case-insensitively. -/
def store2 : Store := { products := [tea, teaUpper], file := [tea, teaUpper], saves := 0 }

/-- search_product is List.find? with the case-insensitive name test. -/
theorem search_eq_find? (ps : List ProductR) (q : String) :
    search_product ps q = ps.find? (fun p => pyLower p.name == pyLower q) := by
  induction ps with
  | nil => rfl
  | cons p rest ih =>
    simp only [search_product]
    by_cases h : pyLower p.name = pyLower q
    · rw [if_pos h, List.find?_cons_of_pos _ (by simp [h])]
    · rw [if_neg h, List.find?_cons_of_neg _ (by simp [h]), ih]

/-- search_product fails exactly when no record matches the query
case-insensitively. -/
theorem search_eq_none_iff (ps : List ProductR) (q : String) :
    search_product ps q = none ↔ ∀ x ∈ ps, pyLower x.name ≠ pyLower q := by
  rw [search_eq_find?, List.find?_eq_none]
  simp

/-- search_product returns p exactly when p is the first record of the
store matching the query case-insensitively. -/
theorem search_eq_some_iff (ps : List ProductR) (q : String) (p : ProductR) :
    search_product ps q = some p ↔
      pyLower p.name = pyLower q ∧
      ∃ l₁ l₂, ps = l₁ ++ p :: l₂ ∧ ∀ x ∈ l₁, pyLower x.name ≠ pyLower q := by
  rw [search_eq_find?, List.find?_eq_some]
  simp

/-- Queries with the same lowercasing give the same search result. -/
theorem search_congr (ps : List ProductR) {q q' : String}
    (h : pyLower q = pyLower q') :
    search_product ps q = search_product ps q' := by
  induction ps with
  | nil => rfl
  | cons p rest ih => simp only [search_product, h, ih]

/-- search_product succeeds exactly when some record matches. -/
theorem search_isSome_iff (ps : List ProductR) (q : String) :
    (search_product ps q).isSome = true ↔
      ∃ x ∈ ps, pyLower x.name = pyLower q := by
  rw [Option.isSome_iff_ne_none, ne_eq, search_eq_none_iff]
  push_neg
  simp

/-- updateFirst rewrites exactly the first matching record. -/
theorem updateFirst_append (l₁ l₂ : List ProductR) (p : ProductR)
    (q : String) (f : ProductR → ProductR)
    (h₁ : ∀ x ∈ l₁, pyLower x.name ≠ pyLower q)
    (hp : pyLower p.name = pyLower q) :
    updateFirst (l₁ ++ p :: l₂) q f = l₁ ++ f p :: l₂ := by
  induction l₁ with
  | nil => simp [updateFirst, hp]
  | cons a t ih =>
    have ha : pyLower a.name ≠ pyLower q := h₁ a (List.mem_cons_self a t)
    have ht : ∀ x ∈ t, pyLower x.name ≠ pyLower q :=
      fun x hx => h₁ x (List.mem_cons_of_mem a hx)
    simp [updateFirst, ha, ih ht]

/-- replaceFirstMatch rewrites exactly the first matching record. -/
theorem replaceFirstMatch_append (l₁ l₂ : List ProductR) (p r : ProductR)
    (q : String)
    (h₁ : ∀ x ∈ l₁, pyLower x.name ≠ pyLower q)
    (hp : pyLower p.name = pyLower q) :
    ProductPy.replaceFirstMatch (l₁ ++ p :: l₂) q r = some (l₁ ++ r :: l₂) := by
  induction l₁ with
  | nil => simp [ProductPy.replaceFirstMatch, hp]
  | cons a t ih =>
    have ha : pyLower a.name ≠ pyLower q := h₁ a (List.mem_cons_self a t)
    have ht : ∀ x ∈ t, pyLower x.name ≠ pyLower q :=
      fun x hx => h₁ x (List.mem_cons_of_mem a hx)
    simp [ProductPy.replaceFirstMatch, ha, ih ht]

/-- replaceFirstMatch fails exactly when no record matches. -/
theorem replaceFirstMatch_none_iff (ps : List ProductR) (q : String)
    (r : ProductR) :
    ProductPy.replaceFirstMatch ps q r = none ↔
      ∀ x ∈ ps, pyLower x.name ≠ pyLower q := by
  induction ps with
  | nil => simp [ProductPy.replaceFirstMatch]
  | cons p rest ih =>
    by_cases h : pyLower p.name = pyLower q
    · simp [ProductPy.replaceFirstMatch, h]
    · simp [ProductPy.replaceFirstMatch, h, ih]

/-- pyRemove drops exactly the designated record when everything before
it differs from it. -/
theorem pyRemove_append (l₁ l₂ : List ProductR) (p : ProductR)
    (h₁ : ∀ x ∈ l₁, x ≠ p) :
    Main2.pyRemove (l₁ ++ p :: l₂) p = l₁ ++ l₂ := by
  induction l₁ with
  | nil => simp [Main2.pyRemove]
  | cons a t ih =>
    have ha : a ≠ p := h₁ a (List.mem_cons_self a t)
    have ht : ∀ x ∈ t, x ≠ p := fun x hx => h₁ x (List.mem_cons_of_mem a hx)
    simp [Main2.pyRemove, ha, ih ht]

end StockMgmt

open StockMgmt

/-- C2: for every product store and product present in it, record_sale
with qty strictly greater than the current quantity returns failure and
leaves the store (memory, file, save count) unchanged; with qty at most
the current quantity it succeeds and decreases exactly the matched
record by qty, persisting the result. -/
theorem C2_record_sale (s : Store) (q : String) (qty : Int) (p : ProductR)
    (hs : search_product s.products q = some p) :
    (p.quantity < qty → StockPy.record_sale s q qty = (s, false)) ∧
    (qty ≤ p.quantity →
      ∃ l₁ l₂, s.products = l₁ ++ p :: l₂ ∧
        (∀ x ∈ l₁, pyLower x.name ≠ pyLower q) ∧
        StockPy.record_sale s q qty =
          (saveStore s (l₁ ++ { p with quantity := p.quantity - qty } :: l₂),
            true)) := by
  obtain ⟨hp, l₁, l₂, hps, h₁⟩ := (search_eq_some_iff _ _ _).mp hs
  constructor
  · intro hlt
    simp only [StockPy.record_sale, hs]
    rw [if_neg (by omega)]
  · intro hle
    refine ⟨l₁, l₂, hps, h₁, ?_⟩
    have hu : updateFirst s.products q
        (fun r => { r with quantity := r.quantity - qty }) =
        l₁ ++ { p with quantity := p.quantity - qty } :: l₂ := by
      rw [hps]
      exact updateFirst_append l₁ l₂ p q _ h₁ hp
    simp only [StockPy.record_sale, hs, if_pos hle, hu]

/-- Closed instance of C2_record_sale at a concrete store. -/
theorem C2_witness :
    StockPy.record_sale demoStore ("Tea") 9 = (demoStore, false) :=
  (C2_record_sale demoStore ("Tea") 9 tea (by decide)).1 (by decide)

/-- C5: search_product returns the first record in insertion order
matching the query case-insensitively, returns none exactly when no
record matches, and two queries with the same lowercasing give the same
result. -/
theorem C5_search (ps : List ProductR) (q : String) :
    (∀ p, search_product ps q = some p ↔
      pyLower p.name = pyLower q ∧
      ∃ l₁ l₂, ps = l₁ ++ p :: l₂ ∧ ∀ x ∈ l₁, pyLower x.name ≠ pyLower q) ∧
    (search_product ps q = none ↔ ∀ x ∈ ps, pyLower x.name ≠ pyLower q) ∧
    (∀ q', pyLower q = pyLower q' →
      search_product ps q = search_product ps q') :=
  ⟨fun p => search_eq_some_iff ps q p, search_eq_none_iff ps q,
   fun _ h => search_congr ps h⟩

/-- Closed instance of C5_search: both case variants of the stored name
Latte Mix return the same record. -/
theorem C5_witness :
    search_product [latteMix] ("latte mix") =
      search_product [latteMix] ("LATTE MIX") ∧
    search_product [latteMix] ("LATTE MIX") = some latteMix :=
  ⟨(C5_search [latteMix] ("latte mix")).2.2 ("LATTE MIX") (by decide),
   by decide⟩

/-- C7: the low-stock query returns exactly the products with quantity
strictly below the threshold, in store order (a sublist of the store),
and the Espresso scenario of the spec evaluates as stated.  The query
is a pure function of the store, so it mutates nothing. -/
theorem C7_low_stock (ps : List ProductR) (t : Int) :
    List.Sublist (low_stock_items ps t) ps ∧
    (∀ p, p ∈ low_stock_items ps t ↔ p ∈ ps ∧ p.quantity < t) ∧
    low_stock_items [espresso] 10 = [espresso] ∧
    low_stock_items [espresso] 5 = [] := by
  refine ⟨List.filter_sublist ps, ?_, by decide, by decide⟩
  intro p
  simp [low_stock_items, List.mem_filter]

/-- C9: record_sale returns the identical failure result, the pair of
the unchanged store and False, both when no record matches and when the
matched record has insufficient quantity. -/
theorem C9_sale_failures (s : Store) (q : String) (qty : Int) :
    (search_product s.products q = none →
      StockPy.record_sale s q qty = (s, false)) ∧
    (∀ p, search_product s.products q = some p → p.quantity < qty →
      StockPy.record_sale s q qty = (s, false)) := by
  constructor
  · intro h
    simp only [StockPy.record_sale, h]
  · intro p h hlt
    simp only [StockPy.record_sale, h]
    rw [if_neg (by omega)]

/-- Closed instance of C9_sale_failures: both failure modes produce the
same value at concrete inputs. -/
theorem C9_witness :
    StockPy.record_sale demoStore ("Coffee") 1 = (demoStore, false) ∧
    StockPy.record_sale demoStore ("Tea") 100 = (demoStore, false) :=
  ⟨(C9_sale_failures demoStore ("Coffee") 1).1 (by decide),
   (C9_sale_failures demoStore ("Tea") 100).2 tea (by decide) (by decide)⟩

/-- C10: receive_stock and adjust_stock validate nothing about their
quantity argument: for every matched record they succeed for every
integer, adding it to or overwriting the stored quantity, so a non-sale
operation can leave a negative quantity, as the two closing concrete
conjuncts show. -/
theorem C10_no_validation :
    (∀ (s : Store) (q : String) (qty : Int) (p : ProductR),
      search_product s.products q = some p →
      (StockPy.receive_stock s q qty).2 = true ∧
      search_product (StockPy.receive_stock s q qty).1.products q =
        some { p with quantity := p.quantity + qty }) ∧
    (∀ (s : Store) (q : String) (newQty : Int) (p : ProductR),
      search_product s.products q = some p →
      (StockPy.adjust_stock s q newQty).2 = true ∧
      search_product (StockPy.adjust_stock s q newQty).1.products q =
        some { p with quantity := newQty }) ∧
    (StockPy.adjust_stock demoStore ("Tea") (-5)).1.products =
      [{ name := "Tea", price := 3, quantity := -5 }] ∧
    (StockPy.receive_stock demoStore ("Tea") (-7)).1.products =
      [{ name := "Tea", price := 3, quantity := -2 }] := by
  refine ⟨?_, ?_, by decide, by decide⟩
  · intro s q qty p hs
    obtain ⟨hp, l₁, l₂, hps, h₁⟩ := (search_eq_some_iff _ _ _).mp hs
    have hu : updateFirst s.products q
        (fun r => { r with quantity := r.quantity + qty }) =
        l₁ ++ { p with quantity := p.quantity + qty } :: l₂ := by
      rw [hps]
      exact updateFirst_append l₁ l₂ p q _ h₁ hp
    simp only [StockPy.receive_stock, hs, hu, saveStore]
    refine ⟨trivial, ?_⟩
    exact (search_eq_some_iff _ _ _).mpr ⟨hp, l₁, l₂, rfl, h₁⟩
  · intro s q newQty p hs
    obtain ⟨hp, l₁, l₂, hps, h₁⟩ := (search_eq_some_iff _ _ _).mp hs
    have hu : updateFirst s.products q
        (fun r => { r with quantity := newQty }) =
        l₁ ++ { p with quantity := newQty } :: l₂ := by
      rw [hps]
      exact updateFirst_append l₁ l₂ p q _ h₁ hp
    simp only [StockPy.adjust_stock, hs, hu, saveStore]
    refine ⟨trivial, ?_⟩
    exact (search_eq_some_iff _ _ _).mpr ⟨hp, l₁, l₂, rfl, h₁⟩

/-- Closed instance of C10_no_validation: receiving a negative quantity
succeeds and decreases the stored quantity. -/
theorem C10_witness :
    (StockPy.receive_stock demoStore ("Tea") (-3)).2 = true ∧
    search_product (StockPy.receive_stock demoStore ("Tea") (-3)).1.products
        ("Tea") = some { name := "Tea", price := 3, quantity := 2 } := by
  have h := C10_no_validation.1 demoStore ("Tea") (-3) tea (by decide)
  exact ⟨h.1, h.2.trans (by decide)⟩

/-- C6: for every store, every product present with the non-negative
quantity the data model gives it, and every positive qty, receive_stock
followed by record_sale of the same qty succeeds and restores the whole
product list, hence the original quantity, with every other record
unchanged. -/
theorem C6_roundtrip (s : Store) (q : String) (qty : Int) (p : ProductR)
    (hs : search_product s.products q = some p)
    (hq : 0 ≤ p.quantity) (_hpos : 0 < qty) :
    (StockPy.receive_stock s q qty).2 = true ∧
    (StockPy.record_sale (StockPy.receive_stock s q qty).1 q qty).2 = true ∧
    (StockPy.record_sale (StockPy.receive_stock s q qty).1 q qty).1.products =
      s.products := by
  obtain ⟨hp, l₁, l₂, hps, h₁⟩ := (search_eq_some_iff _ _ _).mp hs
  obtain ⟨pn, ppr, pq⟩ := p
  simp only at hp hq
  have hu : updateFirst s.products q
      (fun r => { r with quantity := r.quantity + qty }) =
      l₁ ++ ⟨pn, ppr, pq + qty⟩ :: l₂ := by
    rw [hps]
    exact updateFirst_append l₁ l₂ _ q _ h₁ hp
  have hrec : StockPy.receive_stock s q qty =
      (saveStore s (l₁ ++ ⟨pn, ppr, pq + qty⟩ :: l₂), true) := by
    simp only [StockPy.receive_stock, hs, hu]
  have hsearch : search_product (l₁ ++ ⟨pn, ppr, pq + qty⟩ :: l₂) q =
      some ⟨pn, ppr, pq + qty⟩ :=
    (search_eq_some_iff _ _ _).mpr ⟨hp, l₁, l₂, rfl, h₁⟩
  have hu2 : updateFirst (l₁ ++ ⟨pn, ppr, pq + qty⟩ :: l₂) q
      (fun r => { r with quantity := r.quantity - qty }) =
      l₁ ++ ⟨pn, ppr, pq + qty - qty⟩ :: l₂ :=
    updateFirst_append l₁ l₂ _ q _ h₁ hp
  have hback : pq + qty - qty = pq := by omega
  refine ⟨by rw [hrec], ?_, ?_⟩
  · rw [hrec]
    simp only [StockPy.record_sale, saveStore, hsearch]
    rw [if_pos (by omega)]
  · rw [hrec]
    simp only [StockPy.record_sale, saveStore, hsearch]
    rw [if_pos (by omega)]
    simp only [hu2, hback, hps]

/-- Closed instance of C6_roundtrip at a concrete store. -/
theorem C6_witness :
    (StockPy.record_sale
        (StockPy.receive_stock demoStore ("Tea") 4).1 ("Tea") 4).1.products =
      demoStore.products :=
  (C6_roundtrip demoStore ("Tea") 4 tea (by decide) (by decide) (by decide)).2.2

/-- C4: update_product fails with the store unchanged when no record
matches the name case-insensitively; otherwise it replaces the first
matched record by the new record at the same position, leaving every
other record and the order unchanged, and persists; and when the store
satisfies the unique-name invariant and the new record has a different
key, the old name afterwards finds nothing while the new name finds a
record. -/
theorem C4_update (s : Store) (q : String) (r : ProductR) :
    (search_product s.products q = none →
      ProductPy.update_product s q r = (s, false)) ∧
    (∀ p, search_product s.products q = some p →
      ∃ l₁ l₂, s.products = l₁ ++ p :: l₂ ∧
        (∀ x ∈ l₁, pyLower x.name ≠ pyLower q) ∧
        ProductPy.update_product s q r = (saveStore s (l₁ ++ r :: l₂), true)) ∧
    (noDupNames s.products → pyLower r.name ≠ pyLower q →
      (search_product s.products q).isSome = true →
      search_product (ProductPy.update_product s q r).1.products q = none ∧
      (search_product (ProductPy.update_product s q r).1.products
        r.name).isSome = true) := by
  have hrepl : ∀ p, search_product s.products q = some p →
      ∃ l₁ l₂, s.products = l₁ ++ p :: l₂ ∧
        (∀ x ∈ l₁, pyLower x.name ≠ pyLower q) ∧
        ProductPy.update_product s q r = (saveStore s (l₁ ++ r :: l₂), true) := by
    intro p hs
    obtain ⟨hp, l₁, l₂, hps, h₁⟩ := (search_eq_some_iff _ _ _).mp hs
    refine ⟨l₁, l₂, hps, h₁, ?_⟩
    have hr : ProductPy.replaceFirstMatch s.products q r = some (l₁ ++ r :: l₂) := by
      rw [hps]
      exact replaceFirstMatch_append l₁ l₂ p r q h₁ hp
    simp only [ProductPy.update_product, hr]
  refine ⟨?_, hrepl, ?_⟩
  · intro h
    have hr : ProductPy.replaceFirstMatch s.products q r = none :=
      (replaceFirstMatch_none_iff _ _ _).mpr ((search_eq_none_iff _ _).mp h)
    simp only [ProductPy.update_product, hr]
  · intro hnd hkey hsome
    obtain ⟨p, hp⟩ := Option.isSome_iff_exists.mp hsome
    obtain ⟨l₁, l₂, hps, h₁, hupd⟩ := hrepl p hp
    have hmatch : pyLower p.name = pyLower q :=
      ((search_eq_some_iff _ _ _).mp hp).1
    have h₂ : ∀ x ∈ l₂, pyLower x.name ≠ pyLower q := by
      intro x hx
      have hpair : List.Pairwise
          (fun a b => pyLower a.name ≠ pyLower b.name) (p :: l₂) :=
        ((List.pairwise_append.mp (hps ▸ hnd)).2.1)
      have := (List.pairwise_cons.mp hpair).1 x hx
      rw [← hmatch]
      exact fun hx2 => this hx2.symm
    rw [hupd]
    constructor
    · rw [search_eq_none_iff]
      intro x hx
      simp only [saveStore] at hx ⊢
      rcases List.mem_append.mp hx with h | h
      · exact h₁ x h
      · rcases List.mem_cons.mp h with h | h
        · rw [h]; exact hkey
        · exact h₂ x h
    · rw [search_isSome_iff]
      exact ⟨r, by simp [saveStore], rfl⟩

/-- Closed instance of C4_update: the rename scenario of the spec.
Updating Tea to a record named Green Tea makes the old name unsearchable
and the new name searchable. -/
theorem C4_witness :
    search_product
      (ProductPy.update_product demoStore ("Tea") greenTea).1.products
      ("Tea") = none ∧
    (search_product
      (ProductPy.update_product demoStore ("Tea") greenTea).1.products
      (greenTea.name)).isSome = true :=
  (C4_update demoStore ("Tea") greenTea).2.2 (by decide) (by decide) (by decide)

/-- Counterexample to C1: product.py add_product performs no duplicate
check.  With Tea already stored, adding a record named tea (a
case-insensitive duplicate) appends it and persists the duplicate,
instead of failing as a no-op. -/
theorem C1_counterexample :
    (search_product demoStore.products (teaDup.name)).isSome = true ∧
    (ProductPy.add_product demoStore teaDup).products =
      demoStore.products ++ [teaDup] ∧
    (ProductPy.add_product demoStore teaDup).file =
      demoStore.products ++ [teaDup] ∧
    (ProductPy.add_product demoStore teaDup).products ≠
      demoStore.products := by
  refine ⟨by decide, by decide, by decide, by decide⟩

/-- C1 as amended: main2.py pm_add_product is a no-op on a
case-insensitive duplicate and otherwise appends at the end and
persists, while product.py add_product appends and persists
unconditionally, with no duplicate check. -/
theorem C1_amended (s : Store) (p : ProductR) :
    ((∃ x ∈ s.products, pyLower x.name = pyLower p.name) →
      Main2.pm_add_product s p = s) ∧
    ((∀ x ∈ s.products, pyLower x.name ≠ pyLower p.name) →
      Main2.pm_add_product s p = saveStore s (s.products ++ [p])) ∧
    ProductPy.add_product s p = saveStore s (s.products ++ [p]) := by
  refine ⟨?_, ?_, rfl⟩
  · intro h
    have hsome := (search_isSome_iff s.products p.name).mpr h
    obtain ⟨y, hy⟩ := Option.isSome_iff_exists.mp hsome
    simp only [Main2.pm_add_product, hy]
  · intro h
    have hnone : search_product s.products p.name = none :=
      (search_eq_none_iff _ _).mpr h
    simp only [Main2.pm_add_product, hnone]

/-- Closed instance of C1_amended: adding the duplicate through the
main2.py manager really is a no-op. -/
theorem C1_witness : Main2.pm_add_product demoStore teaDup = demoStore :=
  (C1_amended demoStore teaDup).1 ⟨tea, by decide, by decide⟩

/-- Counterexample to C3: main2.py delete_product removes only the
first matching record, so after deleting tea from a store holding Tea
and TEA a case-insensitive match is still present; and product.py
delete_product invokes the save method even when nothing matches. -/
theorem C3_counterexample :
    ((Main2.pm_delete_product store2 ("tea")).1.products = [teaUpper] ∧
      pyLower teaUpper.name = pyLower ("tea")) ∧
    (search_product demoStore.products ("Coffee") = none ∧
      (ProductPy.delete_product demoStore ("Coffee")).saves =
        demoStore.saves + 1) := by
  refine ⟨⟨by decide, by decide⟩, by decide, by decide⟩

/-- C3 as amended: main2.py delete_product fails with the store and
file unchanged and no persist when nothing matches, and otherwise
removes exactly the first matching record and persists; product.py
delete_product removes every matching record, keeps the rest in order,
and persists unconditionally, even when nothing matched. -/
theorem C3_amended (s : Store) (q : String) :
    (search_product s.products q = none →
      Main2.pm_delete_product s q = (s, false)) ∧
    (∀ p, search_product s.products q = some p →
      ∃ l₁ l₂, s.products = l₁ ++ p :: l₂ ∧
        (∀ x ∈ l₁, pyLower x.name ≠ pyLower q) ∧
        Main2.pm_delete_product s q = (saveStore s (l₁ ++ l₂), true)) ∧
    (∀ x, x ∈ (ProductPy.delete_product s q).products ↔
      x ∈ s.products ∧ pyLower x.name ≠ pyLower q) ∧
    List.Sublist (ProductPy.delete_product s q).products s.products ∧
    (ProductPy.delete_product s q).file =
      (ProductPy.delete_product s q).products ∧
    (ProductPy.delete_product s q).saves = s.saves + 1 := by
  refine ⟨?_, ?_, ?_, ?_, rfl, rfl⟩
  · intro h
    simp only [Main2.pm_delete_product, h]
  · intro p hs
    obtain ⟨hp, l₁, l₂, hps, h₁⟩ := (search_eq_some_iff _ _ _).mp hs
    refine ⟨l₁, l₂, hps, h₁, ?_⟩
    have hne : ∀ x ∈ l₁, x ≠ p := by
      intro x hx hxp
      exact h₁ x hx (hxp ▸ hp)
    have hrem : Main2.pyRemove s.products p = l₁ ++ l₂ := by
      rw [hps]
      exact pyRemove_append l₁ l₂ p hne
    simp only [Main2.pm_delete_product, hs, hrem]
  · intro x
    simp [ProductPy.delete_product, saveStore, List.mem_filter]
  · exact List.filter_sublist s.products

/-- Closed instance of C3_amended: deleting a missing name through the
main2.py manager fails and changes nothing. -/
theorem C3_witness :
    Main2.pm_delete_product demoStore ("Coffee") = (demoStore, false) :=
  (C3_amended demoStore ("Coffee")).1 (by decide)

/-- Counterexample to C8: the Main.py login loop lowercases the
submitted password before comparing, so it grants entry for the
password TEST even though TEST is not the fixed credential password.
The password is therefore not compared as submitted. -/
theorem C8_counterexample :
    MainPy.login_grant ("admin") ("TEST") = true ∧
    ("TEST" : String) ≠ "test" := by
  refine ⟨by decide, by decide⟩

/-- C8 as amended: in main3.py the gate grants exactly when the
username equals admin case-insensitively and the password equals the
single stored credential compared exactly as submitted; in Main.py the
gate is case-insensitive in the username and in the password, as the
invariance under lowercasing and the concrete grants show. -/
theorem C8_amended :
    (∀ u pw, Main3.login_grant u pw = true ↔
      (pyLower u = "admin" ∧ pw = "test")) ∧
    (∀ u pw u' pw', pyLower u = pyLower u' → pyLower pw = pyLower pw' →
      MainPy.login_grant u pw = MainPy.login_grant u' pw') ∧
    MainPy.login_grant ("admin") ("test") = true ∧
    MainPy.login_grant ("ADMIN") ("TEST") = true ∧
    MainPy.login_grant ("Admin") ("wrong") = false := by
  refine ⟨?_, ?_, by decide, by decide, by decide⟩
  · intro u pw
    by_cases h : pyLower u = "admin"
    · simp [Main3.login_grant, Main3.CREDENTIALS, List.find?, h]
    · have hne : ("admin" == pyLower u) = false := by
        rw [beq_eq_false_iff_ne]
        exact fun hx => h hx.symm
      simp [Main3.login_grant, Main3.CREDENTIALS, List.find?, hne, h]
  · intro u pw u' pw' h1 h2
    simp only [MainPy.login_grant, h1, h2]

/-- Closed instance of C8_amended: a differently cased pair gives the
same Main.py decision, and main3.py rejects the uppercased password. -/
theorem C8_witness :
    MainPy.login_grant ("Admin") ("Test") =
      MainPy.login_grant ("admin") ("test") ∧
    Main3.login_grant ("admin") ("TEST") = false := by
  constructor
  · exact C8_amended.2.1 ("Admin") ("Test") ("admin") ("test")
      (by decide) (by decide)
  · cases hb : Main3.login_grant ("admin") ("TEST") with
    | false => rfl
    | true => exact absurd ((C8_amended.1 ("admin") ("TEST")).mp hb).2 (by decide)
